import Mathlib

/-!
# Verification of the country-data-gen dataset generator

A shallow embedding of the core of `phohenecker/country-data-gen`:

* `countries/asp/literal.py` — the `Literal` value class (predicate, terms,
  polarity), its legality checks and its canonical string form;
* `countries/asp/dlv_solver.py` — the regular expression used to parse
  literals out of the DLV answer-set output;
* `countries/dataset_generator.py` — the sample-generation pipeline
  (`_generate_sample`) and the train/dev/test splitter (`_split_countries`).

Python sets of literals are modelled as `Finset Literal`; the external ASP
solver is modelled as an abstract deterministic function from the disclosed
fact set to a set of derived literals.
-/

namespace CountryData

/-- Mirrors `countries/country.py`: a country record holding the country's
name, the names of its neighbors, its region, and its optional subregion. -/
structure Country where
  name : String
  neighbors : List String
  region : String
  subregion : Option String
  deriving DecidableEq, Repr

/-- Mirrors `countries/asp/literal.py`: a literal consists of a predicate
symbol, an ordered tuple of terms, and a polarity flag (`positive`).
The Python class stores exactly these three attributes. -/
structure Literal where
  predicate : String
  terms : List String
  positive : Bool
  deriving DecidableEq, Repr

/-- `Literal.PREDICATE_PATTERN = "^[a-z][a-zA-Z0-9]*$"` on a list of
characters: nonempty, first character a lower-case ASCII letter, remaining
characters ASCII alphanumeric. -/
def legalNameChars : List Char → Bool
  | [] => false
  | c :: rest => c.isLower && rest.all (fun d => d.isAlphanum)

/-- A string is a legal predicate symbol / term (`PREDICATE_PATTERN` and
`TERM_PATTERN` of `literal.py` are identical). -/
def legalName (s : String) : Bool :=
  legalNameChars s.data

/-- The validation performed by the `Literal` constructor: the predicate and
every term must match the name pattern (this also rules out empty strings,
which the constructor rejects explicitly). -/
def Literal.legal (l : Literal) : Bool :=
  legalName l.predicate && l.terms.all legalName

/-- Python's `",".join(terms)` as used by `Literal.__str__`. -/
def joinComma : List String → String
  | [] => ""
  | [t] => t
  | t :: rest => t ++ "," ++ joinComma rest

/-- `Literal.__str__`: the canonical string form
`[~]predicate(t1,t2,...)` — a `~` prefix exactly for negative literals. -/
def Literal.canon (l : Literal) : String :=
  (if l.positive then "" else "~") ++ l.predicate ++ "(" ++ joinComma l.terms ++ ")"

/-- The `Literal` constructor as a fallible operation: returns the literal
when the validation of `literal.py` passes and fails otherwise. -/
def mkLiteral (predicate : String) (terms : List String) (positive : Bool) : Option Literal :=
  let l : Literal := ⟨predicate, terms, positive⟩
  if l.legal then some l else none

/-- The single-quote character appearing in the error messages of
`literal.py`. -/
def quoteChar : Char := '\''

/-- The `'...'` quoting used by those error messages. -/
def quoted (s : String) : String :=
  ⟨quoteChar :: (s.data ++ [quoteChar])⟩

/-- The ValueError message of `literal.py` line 78. -/
def emptyPredicateError : String :=
  "The parameter <predicate> must not be the empty string!"

/-- The ValueError message of `literal.py` line 80. -/
def predicateError (predicate : String) : String :=
  "The provided <predicate> is not a legal predicate symbol: " ++ quoted predicate ++ "!"

/-- The ValueError message of `literal.py` line 86. -/
def emptyTermError : String :=
  "None of the terms can be the empty string!"

/-- The ValueError message of `literal.py` lines 88-89. -/
def termError (t : String) : String :=
  "The provided <terms> contain an illegal expression: " ++ quoted t ++ "!"

/-- The term loop of the `Literal` constructor (`literal.py` lines 84-89):
each term is checked for emptiness, then against `TERM_PATTERN`; the first
offending term raises. -/
def checkTerms : List String → Except String Unit
  | [] => .ok ()
  | t :: rest =>
    if t.data = [] then .error emptyTermError
    else if legalName t then checkTerms rest
    else .error (termError t)

/-- The `Literal` constructor with its exceptions (`literal.py` lines
75-95): an empty or pattern-violating predicate raises, then each term is
checked in order; on success the literal stores exactly the given
components. -/
def mkLiteralE (predicate : String) (terms : List String) (positive : Bool) :
    Except String Literal :=
  if predicate.data = [] then .error emptyPredicateError
  else if legalName predicate then
    match checkTerms terms with
    | .ok _ => .ok ⟨predicate, terms, positive⟩
    | .error e => .error e
  else .error (predicateError predicate)

/-!
## The DLV literal pattern

`DlvSolver.LITERAL_PATTERN = r"^(?P<sign>[-~]?)(?P<predicate>.+)\((?P<terms>.+)\)$"`.

The pattern is anchored on both sides; `.+` groups are greedy.  A match of
the whole string therefore decomposes it as
`sign ++ predicate ++ "(" ++ terms ++ ")"`, where `sign` is `-`, `~` or
empty, `predicate` and `terms` are nonempty, the final character is the
closing parenthesis, and — by greediness of the predicate group — the
opening parenthesis is the *last* `(` that leaves at least one character of
terms before the final `)`.
-/

/-- Splits a character list at the last `'('` that is followed by at least
one further character, returning the part before and after that `'('`
(the greedy choice of the predicate group of `LITERAL_PATTERN`). -/
def splitPredTerms : List Char → Option (List Char × List Char)
  | [] => none
  | c :: rest =>
    match splitPredTerms rest with
    | some (p, t) => some (c :: p, t)
    | none => if c = '(' && !rest.isEmpty then some ([], rest) else none

/-- Matches `(?P<predicate>.+)\((?P<terms>.+)\)$` against a character list:
the list must end in `')'` and the remainder must split into a nonempty
predicate, an `'('`, and nonempty terms, with the greedy choice of `'('`. -/
def matchBody (cs : List Char) : Option (List Char × List Char) :=
  match cs.getLast? with
  | none => none
  | some c =>
    if c = ')' then
      match splitPredTerms cs.dropLast with
      | some (p, t) => if p.isEmpty then none else some (p, t)
      | none => none
    else none

/-- A full match of `LITERAL_PATTERN` on a character list, returning the
contents of the groups `sign`, `predicate`, and `terms`.  The optional sign
group is greedy: a leading `-`/`~` is consumed when the rest of the string
still matches, and given back otherwise. -/
def matchLiteralChars : List Char → Option (String × String × String)
  | [] => none
  | c :: rest =>
    if c = '-' || c = '~' then
      match matchBody rest with
      | some (p, t) => some (⟨[c]⟩, ⟨p⟩, ⟨t⟩)
      | none =>
        match matchBody (c :: rest) with
        | some (p, t) => some ("", ⟨p⟩, ⟨t⟩)
        | none => none
    else
      match matchBody (c :: rest) with
      | some (p, t) => some ("", ⟨p⟩, ⟨t⟩)
      | none => none

/-- A full match of `LITERAL_PATTERN` on a string. -/
def matchLiteralPattern (s : String) : Option (String × String × String) :=
  matchLiteralChars s.data

/-- Python's `str.split(",")` on a character list: splits at every comma;
the empty list yields one empty field, like `"".split(",") == [""]`. -/
def splitCommas : List Char → List (List Char)
  | [] => [[]]
  | c :: rest =>
    if c = ',' then [] :: splitCommas rest
    else
      match splitCommas rest with
      | h :: t => (c :: h) :: t
      | [] => [[c]]

/-- The per-literal parsing step of `DlvSolver.run` (lines 93-98): match the
string against `LITERAL_PATTERN`, split the terms group at commas, and build
a `Literal` whose polarity is positive exactly when the sign group is empty.
Fails when the pattern does not match (Python would crash on `m.group`) or
when the `Literal` constructor rejects a component. -/
def parseDlvLiteral (s : String) : Option Literal :=
  match matchLiteralPattern s with
  | none => none
  | some (sign, pred, terms) =>
      mkLiteral pred ((splitCommas terms.data).map (fun cs => ⟨cs⟩)) (sign == "")

/-!
## The dataset generator

`countries/dataset_generator.py`.  The generator's state is the ordered
country table (`self._data`, an `OrderedDict`, modelled as the list of keys
plus a lookup function), the problem setting, and the class-facts switch.
Randomness (`random.shuffle`) is modelled by passing the shuffled list as an
argument; the external ASP solver is an abstract function from the set of
disclosed facts to the set of derived literals.
-/

/-- Modelled from the spec: `countries/problem_setting.py` is not under
`src/`; the spec fixes exactly three problem-difficulty variants named
S1, S2, and S3. -/
inductive ProblemSetting
  | S1
  | S2
  | S3
  deriving DecidableEq, Repr

/-- `DatasetGenerator.MAX_ATTEMPTS`. -/
def MAX_ATTEMPTS : Nat := 100

/-- `DatasetGenerator.NEIGHBOR_OF_PREDICATE`. -/
def NEIGHBOR_OF_PREDICATE : String := "neighborOf"

/-- `DatasetGenerator.NUM_EVAL_COUNTRIES`. -/
def NUM_EVAL_COUNTRIES : Nat := 20

/-- `vocabulary.CLASS_COUNTRY`. -/
def CLASS_COUNTRY : String := "country"

/-- `vocabulary.CLASS_REGION`. -/
def CLASS_REGION : String := "region"

/-- `vocabulary.CLASS_SUBREGION`. -/
def CLASS_SUBREGION : String := "subregion"

/-- `vocabulary.RELATION_LOCATED_IN`. -/
def RELATION_LOCATED_IN : String := "located_in"

/-- `vocabulary.RELATION_NEIGHBOR_OF`. -/
def RELATION_NEIGHBOR_OF : String := "neighbor_of"

/-- The state of a `DatasetGenerator`: `names` are the keys of the ordered
dict `self._data` and `info` its lookup; `problem` is `self._problem_setting`
and `classFacts` is `self._class_facts`. -/
structure Generator where
  names : List String
  info : String → Country
  problem : ProblemSetting
  classFacts : Bool

/-- Python `sorted` on a list of strings: strings compare lexicographically
by code points in Python, which is the lexicographic order on the character
lists; modelled by a stable sort, as in CPython. -/
def sortStrings (l : List String) : List String :=
  List.insertionSort (fun a b => a.data ≤ b.data) l

instance : IsTotal String fun a b => a.data ≤ b.data :=
  ⟨fun a b => IsTotal.total a.data b.data⟩

instance : IsTrans String fun a b => a.data ≤ b.data :=
  ⟨fun _ _ _ => le_trans⟩

instance {ε α : Type} [DecidableEq ε] [DecidableEq α] : DecidableEq (Except ε α) :=
  fun a b =>
    match a, b with
    | .ok x, .ok y => if h : x = y then isTrue (by rw [h]) else isFalse (by simp [h])
    | .error x, .error y => if h : x = y then isTrue (by rw [h]) else isFalse (by simp [h])
    | .ok _, .error _ => isFalse (by simp)
    | .error _, .ok _ => isFalse (by simp)

/-- The distinct region names occurring in the data, sorted
(`__init__` lines 131-143). -/
def Generator.regionList (g : Generator) : List String :=
  sortStrings ((g.names.map fun n => (g.info n).region).dedup)

/-- The distinct subregions recorded for a region: the subregions of the
countries belonging to it, sorted (`__init__` lines 131-143). -/
def Generator.subregionsOf (g : Generator) (r : String) : List String :=
  sortStrings ((g.names.filterMap fun n =>
    if (g.info n).region = r then (g.info n).subregion else none).dedup)

/-- `self._regions`: each region paired with its sorted subregion list. -/
def Generator.regionsIndex (g : Generator) : List (String × List String) :=
  g.regionList.map fun r => (r, g.subregionsOf r)

/-- All subregion names appearing in `self._regions`. -/
def Generator.subregionNames (g : Generator) : List String :=
  g.regionsIndex.flatMap Prod.snd

/-- The prediction targets of `_generate_sample` (lines 258-262): the given
`inf_countries` when truthy (`None` and the empty list both fall through the
`if inf_countries:` check), else the last `NUM_EVAL_COUNTRIES` entries of
the shuffled working list. -/
def chooseTargets (countries : List String) (infOpt : Option (List String)) : Finset String :=
  match infOpt with
  | some l =>
      if l.isEmpty then (countries.drop (countries.length - NUM_EVAL_COUNTRIES)).toFinset
      else l.toFinset
  | none => (countries.drop (countries.length - NUM_EVAL_COUNTRIES)).toFinset

/-- Lines 264-268: the countries that are neighbors of a prediction target
but not targets themselves. -/
def Generator.targetNeighbors (g : Generator) (inf : Finset String) : Finset String :=
  (inf.biUnion fun c => ((g.info c).neighbors).toFinset) \ inf

/-- `Literal(voc.CLASS_REGION, [r])`. -/
def regionClassLit (r : String) : Literal := ⟨CLASS_REGION, [r], true⟩

/-- `Literal(voc.CLASS_SUBREGION, [s])`. -/
def subregionClassLit (s : String) : Literal := ⟨CLASS_SUBREGION, [s], true⟩

/-- `Literal(voc.CLASS_COUNTRY, [c])`. -/
def countryClassLit (c : String) : Literal := ⟨CLASS_COUNTRY, [c], true⟩

/-- The component values of `Literal(voc.RELATION_LOCATED_IN, [a, b])`.
Note that the constructor in fact *rejects* this literal: the predicate
`located_in` fails `PREDICATE_PATTERN` (no underscores), so `Literal.legal`
is false on every such literal and `mkLiteralE` raises; the checked
pipeline `Generator.generateSampleChecked` makes that ValueError explicit. -/
def locLit (a b : String) : Literal := ⟨RELATION_LOCATED_IN, [a, b], true⟩

/-- `Literal(NEIGHBOR_OF_PREDICATE, [a, b])`. -/
def nbLit (a b : String) : Literal := ⟨NEIGHBOR_OF_PREDICATE, [a, b], true⟩

/-- `reg_lit` of a country (line 312). -/
def Generator.regLit (g : Generator) (c : String) : Literal :=
  locLit c (g.info c).region

/-- `sub_lit` of a country (line 313): present only when it has a subregion. -/
def Generator.subLit (g : Generator) (c : String) : Option Literal :=
  ((g.info c).subregion).map fun s => locLit c s

/-- Lines 290-293: the region and subregion class literals. -/
def Generator.regionClassFacts (g : Generator) : Finset Literal :=
  (g.regionsIndex.flatMap fun p =>
    regionClassLit p.1 :: p.2.map subregionClassLit).toFinset

/-- Lines 294-296: one `located_in(s, r)` literal per subregion→region pair
(put into both `location_facts` and `all_locations`). -/
def Generator.srLocationFacts (g : Generator) : Finset Literal :=
  (g.regionsIndex.flatMap fun p => p.2.map fun s => locLit s p.1).toFinset

/-- The complete `class_facts` set: region/subregion class literals
(lines 290-293) plus one country class literal per working country
(lines 311/314). -/
def Generator.classFactsSet (g : Generator) (countries : List String) : Finset Literal :=
  g.regionClassFacts ∪ (countries.map countryClassLit).toFinset

/-- The complete `all_locations` set: the subregion→region literals plus
every working country's region literal and (when present) subregion literal
(lines 294-296 and 315-317). -/
def Generator.allLocationsSet (g : Generator) (countries : List String) : Finset Literal :=
  g.srLocationFacts ∪ (countries.map g.regLit).toFinset
    ∪ (countries.filterMap g.subLit).toFinset

/-- The per-variant disclosure rule for a country's region literal
(lines 319-334). -/
def Generator.discloseReg (g : Generator) (inf infN : Finset String) (c : String) : Bool :=
  match g.problem with
  | .S1 => decide (c ∉ inf)
  | .S2 => decide (c ∉ inf)
  | .S3 => decide (c ∉ inf) && decide (c ∉ infN)

/-- The per-variant disclosure rule for a country's subregion literal
(lines 319-334); it only applies when the country has a subregion. -/
def Generator.discloseSub (g : Generator) (inf : Finset String) (c : String) : Bool :=
  match g.problem with
  | .S1 => true
  | .S2 => decide (c ∉ inf)
  | .S3 => decide (c ∉ inf)

/-- The complete `location_facts` set (the located-in facts disclosed to the
solver): the subregion→region literals (line 295) plus the per-variant
selection of country literals (lines 319-334). -/
def Generator.locationFactsSet (g : Generator) (countries : List String)
    (inf infN : Finset String) : Finset Literal :=
  g.srLocationFacts
    ∪ ((countries.filter (g.discloseReg inf infN)).map g.regLit).toFinset
    ∪ ((countries.filter (g.discloseSub inf)).filterMap g.subLit).toFinset

/-- Lines 336-340, the `neighbor_facts` set: for every working country and
every one of its registered neighbors that is also in the working list, the
two symmetric `neighborOf` literals. -/
def Generator.neighborFactsSet (g : Generator) (countries : List String) : Finset Literal :=
  (countries.flatMap fun c =>
    ((g.info c).neighbors.filter fun n => countries.contains n).flatMap fun n =>
      [nbLit c n, nbLit n c]).toFinset

/-- `countries/asp/answer_set.py`: the facts handed to the solver and the
literals it derived beyond them. -/
structure AnswerSet where
  facts : Finset Literal
  inferences : Finset Literal
  deriving DecidableEq

/-- Iterating an `AnswerSet` yields facts and inferences
(`AnswerSet.__iter__`). -/
def AnswerSet.all (a : AnswerSet) : Finset Literal :=
  a.facts ∪ a.inferences

/-- A solver invocation (`DlvSolver.run`, lines 68-102): the input facts are
deduplicated into a set, the solver derives literals from them, and derived
literals already among the facts are dropped from the inferences.  The
abstract solver itself is the function `derive`. -/
def runSolver (derive : Finset Literal → Finset Literal) (facts : Finset Literal) : AnswerSet :=
  ⟨facts, derive facts \ facts⟩

/-- The arity-aware target test of the `minimal` filter (lines 358-359 and
380-381): a unary literal mentions a target iff its term is one, a binary
literal iff either term is one, and other arities never pass. -/
def mentionsTarget (inf : Finset String) (l : Literal) : Bool :=
  match l.terms with
  | [t] => decide (t ∈ inf)
  | [t1, t2] => decide (t1 ∈ inf) || decide (t2 ∈ inf)
  | _ => false

/-- The `minimal` filter applied to inferences (lines 354-360) and to
missing knowledge (lines 376-382). -/
def keepLiteral (minimal : Bool) (inf : Finset String) (l : Literal) : Bool :=
  !minimal || l.predicate == "region" || l.predicate == "subregion" || mentionsTarget inf l

/-- All intermediate results of one `_generate_sample` run, so that the
theorems below can speak about each of them. -/
structure SampleParts where
  countries : List String
  infCountries : Finset String
  infNeighbors : Finset String
  classFacts : Finset Literal
  neighborFacts : Finset Literal
  locationFacts : Finset Literal
  allLocations : Finset Literal
  inputFacts : Finset Literal
  answer : AnswerSet
  perfect : Finset Literal
  missing : Finset Literal
  nonInferred : Finset Literal
  inferred : Finset Literal
  predictions : Finset Literal
  deriving DecidableEq

/-- Line 343-346, the `input_facts` handed to the restricted solver run:
neighbor facts and disclosed location facts, plus the class facts when
`self._class_facts` is set. -/
def Generator.inputFactsSet (g : Generator) (countries : List String)
    (inf infN : Finset String) : Finset Literal :=
  g.neighborFactsSet countries ∪ g.locationFactsSet countries inf infN
    ∪ (if g.classFacts then g.classFactsSet countries else ∅)

/-- Lines 363-369, `perfect_knowledge`: everything the solver yields when
class facts, neighbor facts, and *all* location facts are disclosed. -/
def Generator.perfectSet (g : Generator) (derive : Finset Literal → Finset Literal)
    (countries : List String) : Finset Literal :=
  (runSolver derive
    (g.classFactsSet countries ∪ g.neighborFactsSet countries
      ∪ g.allLocationsSet countries)).all

/-- Line 346, the restricted solver run on the disclosed facts. -/
def Generator.restrictedAnswer (g : Generator) (derive : Finset Literal → Finset Literal)
    (countries : List String) (inf infN : Finset String) : AnswerSet :=
  runSolver derive (g.inputFactsSet countries inf infN)

/-- Line 372, `missing_knowledge`: perfect knowledge minus everything in the
restricted answer set (its facts and its inferences). -/
def Generator.missingSet (g : Generator) (derive : Finset Literal → Finset Literal)
    (countries : List String) (inf infN : Finset String) : Finset Literal :=
  g.perfectSet derive countries \ (g.restrictedAnswer derive countries inf infN).all

/-- The fact sets and solver results that `_generate_sample`
(lines 229-386) is written to compute.  `shuffled` stands for the result of
`random.shuffle` on `spec_countries + inf_countries`; `infOpt` is the
optional `inf_countries` argument; `derive` is the abstract solver.  The
final knowledge graph contains the facts of the restricted answer set as
non-inferred, the (filtered) inferences as inferred, and the (filtered)
missing knowledge as prediction targets.

This function computes the *values* of those sets; it does not model the
validation the `Literal` constructor performs on every construction, which
in this source in fact aborts the computation (the predicate `located_in`
of every located-in literal fails `PREDICATE_PATTERN`).  The faithful entry
point is `Generator.generateSampleChecked` below, which performs every
constructor validation of lines 290-340 in source order, propagates the
first ValueError, and returns this value only when all of them pass. -/
def Generator.generateSample (g : Generator) (derive : Finset Literal → Finset Literal)
    (shuffled : List String) (infOpt : Option (List String)) (minimal : Bool) : SampleParts :=
  { countries := shuffled
    infCountries := chooseTargets shuffled infOpt
    infNeighbors := g.targetNeighbors (chooseTargets shuffled infOpt)
    classFacts := g.classFactsSet shuffled
    neighborFacts := g.neighborFactsSet shuffled
    locationFacts := g.locationFactsSet shuffled (chooseTargets shuffled infOpt)
      (g.targetNeighbors (chooseTargets shuffled infOpt))
    allLocations := g.allLocationsSet shuffled
    inputFacts := g.inputFactsSet shuffled (chooseTargets shuffled infOpt)
      (g.targetNeighbors (chooseTargets shuffled infOpt))
    answer := g.restrictedAnswer derive shuffled (chooseTargets shuffled infOpt)
      (g.targetNeighbors (chooseTargets shuffled infOpt))
    perfect := g.perfectSet derive shuffled
    missing := g.missingSet derive shuffled (chooseTargets shuffled infOpt)
      (g.targetNeighbors (chooseTargets shuffled infOpt))
    nonInferred := (g.restrictedAnswer derive shuffled (chooseTargets shuffled infOpt)
      (g.targetNeighbors (chooseTargets shuffled infOpt))).facts
    inferred := (g.restrictedAnswer derive shuffled (chooseTargets shuffled infOpt)
      (g.targetNeighbors (chooseTargets shuffled infOpt))).inferences.filter
        fun l => keepLiteral minimal (chooseTargets shuffled infOpt) l
    predictions := (g.missingSet derive shuffled (chooseTargets shuffled infOpt)
      (g.targetNeighbors (chooseTargets shuffled infOpt))).filter
        fun l => keepLiteral minimal (chooseTargets shuffled infOpt) l }

/-!
### The checked sample generation

In the source, literal construction and set insertion are interleaved; a
construction that fails raises a ValueError out of `_generate_sample`, so
none of the fact sets survives.  A successful construction contributes
exactly the literal value with the given components, and set insertion
itself cannot fail, so the run is faithfully modelled by performing every
`Literal(...)` construction of lines 290-340 in source order (stopping at
the first ValueError) and, only when all pass, returning the sets computed
by `generateSample`.
-/

/-- Lines 292-296 for one region `r`: per subregion, the
`Literal(voc.CLASS_SUBREGION, [s])` and
`Literal(voc.RELATION_LOCATED_IN, [s, r])` constructions, in order. -/
def subregionLiteralsChecked (r : String) : List String → Except String Unit
  | [] => .ok ()
  | s :: rest => do
    _ ← mkLiteralE CLASS_SUBREGION [s] true
    _ ← mkLiteralE RELATION_LOCATED_IN [s, r] true
    subregionLiteralsChecked r rest

/-- Lines 290-296: the literal constructions of the region loop, iterating
`self._regions` in its (sorted) order. -/
def regionLiteralsChecked : List (String × List String) → Except String Unit
  | [] => .ok ()
  | (r, subs) :: rest => do
    _ ← mkLiteralE CLASS_REGION [r] true
    _ ← subregionLiteralsChecked r subs
    regionLiteralsChecked rest

/-- Lines 337-340 for one country `c`: per registered neighbor that is in
the working list, the two symmetric `neighborOf` constructions. -/
def neighborLiteralsChecked (countries : List String) (c : String) :
    List String → Except String Unit
  | [] => .ok ()
  | n :: rest =>
    if countries.contains n then do
      _ ← mkLiteralE NEIGHBOR_OF_PREDICATE [c, n] true
      _ ← mkLiteralE NEIGHBOR_OF_PREDICATE [n, c] true
      neighborLiteralsChecked countries c rest
    else neighborLiteralsChecked countries c rest

/-- Lines 304-340: the literal constructions of the country loop: the
country class literal (line 311), the region located-in literal (line 312),
the subregion located-in literal when the country has a subregion
(line 313), then the neighbor literals (lines 337-340). -/
def countryLiteralsChecked (g : Generator) (countries : List String) :
    List String → Except String Unit
  | [] => .ok ()
  | c :: rest => do
    _ ← mkLiteralE CLASS_COUNTRY [c] true
    _ ← mkLiteralE RELATION_LOCATED_IN [c, (g.info c).region] true
    _ ← match (g.info c).subregion with
        | none => Except.ok ()
        | some s => do
          _ ← mkLiteralE RELATION_LOCATED_IN [c, s] true
          Except.ok ()
    _ ← neighborLiteralsChecked countries c (g.info c).neighbors
    countryLiteralsChecked g countries rest

/-- `_generate_sample` with the `Literal` constructor's validation made
explicit: the constructions of the region loop (lines 290-296) and the
country loop (lines 304-340) are performed in source order, the first
ValueError aborts the run, and only when every construction succeeds are
the fact sets, solver runs, and sample contents of `generateSample`
produced. -/
def Generator.generateSampleChecked (g : Generator)
    (derive : Finset Literal → Finset Literal) (shuffled : List String)
    (infOpt : Option (List String)) (minimal : Bool) :
    Except String SampleParts := do
  _ ← regionLiteralsChecked g.regionsIndex
  _ ← countryLiteralsChecked g shuffled shuffled
  .ok (g.generateSample derive shuffled infOpt minimal)

/-- The candidate pool of `_split_countries` (line 401): all countries with
at least one neighbor, sorted; the shuffle that follows is modelled by the
`shuffled` argument of `splitAttempt`. -/
def Generator.eligible (g : Generator) : List String :=
  sortStrings (g.names.filter fun n => decide ((g.info n).neighbors.length > 0))

/-- One attempt of `_split_countries` (lines 400-431): cut the first
`NUM_EVAL_COUNTRIES` entries of the shuffled pool off as dev and the next
`NUM_EVAL_COUNTRIES` as test (each sorted); succeed when every dev/test
country still has a neighbor outside dev ∪ test, assembling the train list
from the remaining pool entries plus all zero-neighbor countries, sorted. -/
def Generator.splitAttempt (g : Generator) (shuffled : List String) :
    Option (List String × List String × List String) :=
  let dev := sortStrings (shuffled.take NUM_EVAL_COUNTRIES)
  let test := sortStrings ((shuffled.drop NUM_EVAL_COUNTRIES).take NUM_EVAL_COUNTRIES)
  let used := dev.toFinset ∪ test.toFinset
  if (dev ++ test).all (fun c => (g.info c).neighbors.any fun n => decide (n ∉ used)) then
    some (sortStrings (shuffled.drop (2 * NUM_EVAL_COUNTRIES)
            ++ g.names.filter fun n => (g.info n).neighbors.isEmpty),
          dev, test)
  else none

/-- The first successful attempt among a list of shuffles. -/
def Generator.splitLoop (g : Generator) :
    List (List String) → Option (List String × List String × List String)
  | [] => none
  | s :: rest =>
    match g.splitAttempt s with
    | some t => some t
    | none => g.splitLoop rest

/-- `_split_countries` (lines 388-434): up to `MAX_ATTEMPTS` attempts, where
`shuffles i` is the shuffled pool of attempt `i`; when every attempt fails,
the `ValueError` message of line 434 is produced. -/
def Generator.splitCountries (g : Generator) (shuffles : Nat → List String) :
    Except String (List String × List String × List String) :=
  match g.splitLoop ((List.range MAX_ATTEMPTS).map shuffles) with
  | some t => .ok t
  | none => .error (toString MAX_ATTEMPTS
      ++ " attempts to split the countries into train/dev/test failed!")

/-!
## Concrete instances

Small registries and solver functions used to evaluate the development on
concrete inputs.
-/

/-- A one-country registry with class facts disabled (variant S1). -/
def exGen : Generator where
  names := ["austria"]
  info := fun n =>
    if n = "austria" then ⟨"austria", [], "europe", some "westernEurope"⟩
    else ⟨n, [], "europe", none⟩
  problem := .S1
  classFacts := false

/-- A two-country registry with class facts enabled (variant S2). -/
def exGenC : Generator where
  names := ["austria", "belgium"]
  info := fun n =>
    if n = "austria" then ⟨"austria", ["belgium"], "europe", some "westernEurope"⟩
    else if n = "belgium" then ⟨"belgium", ["austria"], "europe", some "westernEurope"⟩
    else ⟨n, [], "europe", none⟩
  problem := .S2
  classFacts := true

/-- A two-country registry where a split attempt succeeds although far fewer
than `NUM_EVAL_COUNTRIES` countries have neighbors: `a` borders the
neighborless hub `z`. -/
def gAZ : Generator where
  names := ["a", "z"]
  info := fun n => if n = "a" then ⟨"a", ["z"], "r", none⟩ else ⟨n, [], "r", none⟩
  problem := .S1
  classFacts := true

/-- A two-country registry whose split attempts always fail: both countries
are neighbors of each other, so dev ∪ test swallows every eligible country
and the validity constraint can never hold. -/
def gFail : Generator where
  names := ["a", "b"]
  info := fun n =>
    if n = "a" then ⟨"a", ["b"], "r", none⟩
    else if n = "b" then ⟨"b", ["a"], "r", none⟩
    else ⟨n, [], "r", none⟩
  problem := .S1
  classFacts := true

/-- Forty countries with neighbors, each bordering the neighborless hub `z`,
so that a split attempt succeeds with full-size dev and test sets. -/
def gW : Generator where
  names := ((List.range 40).map fun i => "c" ++ toString i) ++ ["z"]
  info := fun n => if n = "z" then ⟨"z", [], "r", none⟩ else ⟨n, ["z"], "r", none⟩
  problem := .S1
  classFacts := true

/-- The (unshuffled) pool handed to every split attempt on `gW`. -/
def wShuffle : List String := gW.eligible

/-- The dev list a successful attempt on `gW` produces. -/
def wDev : List String := sortStrings (wShuffle.take NUM_EVAL_COUNTRIES)

/-- The test list a successful attempt on `gW` produces. -/
def wTest : List String := sortStrings ((wShuffle.drop NUM_EVAL_COUNTRIES).take NUM_EVAL_COUNTRIES)

/-- The train list a successful attempt on `gW` produces. -/
def wTrain : List String := sortStrings (wShuffle.drop (2 * NUM_EVAL_COUNTRIES)
  ++ gW.names.filter fun n => (gW.info n).neighbors.isEmpty)

/-!
## Lemmas about the literal pattern and the canonical string form
-/

theorem splitPredTerms_of_no_open (t : List Char) (h : '(' ∉ t) :
    splitPredTerms t = none := by
  induction t with
  | nil => rfl
  | cons c rest ih =>
    have hc : c ≠ '(' := fun hc => h (hc ▸ List.mem_cons_self c rest)
    have hr : '(' ∉ rest := fun hr => h (List.mem_cons_of_mem c hr)
    simp [splitPredTerms, ih hr, hc]

theorem splitPredTerms_append (p t : List Char) (ht : '(' ∉ t) (hne : t ≠ []) :
    splitPredTerms (p ++ '(' :: t) = some (p, t) := by
  induction p with
  | nil =>
    simp only [List.nil_append, splitPredTerms, splitPredTerms_of_no_open t ht]
    simp [hne]
  | cons c p' ih =>
    simp [splitPredTerms, ih]

theorem matchBody_append (p t : List Char) (hp : p ≠ []) (ht : '(' ∉ t) (hne : t ≠ []) :
    matchBody (p ++ '(' :: (t ++ [')'])) = some (p, t) := by
  have hsplit : p ++ '(' :: (t ++ [')']) = (p ++ '(' :: t) ++ [')'] := by
    simp
  rw [hsplit]
  simp only [matchBody, List.getLast?_concat, List.dropLast_concat]
  rw [splitPredTerms_append p t ht hne]
  simp [hp]

theorem legalNameChars_mem_isAlphanum {cs : List Char} (h : legalNameChars cs = true)
    {c : Char} (hc : c ∈ cs) : c.isAlphanum = true := by
  cases cs with
  | nil => cases hc
  | cons d rest =>
    simp only [legalNameChars, Bool.and_eq_true, List.all_eq_true] at h
    rcases List.mem_cons.mp hc with rfl | hmem
    · have : c.isLower = true := h.1
      simp [Char.isAlphanum, Char.isAlpha, this]
    · exact h.2 c hmem

theorem legalName_no_special {s : String} (h : legalName s = true) {c : Char}
    (hc : c ∈ s.data) : c ≠ '(' ∧ c ≠ ')' ∧ c ≠ ',' ∧ c ≠ '-' ∧ c ≠ '~' := by
  have halnum := legalNameChars_mem_isAlphanum h hc
  refine ⟨?_, ?_, ?_, ?_, ?_⟩ <;> rintro rfl <;> simp [Char.isAlphanum, Char.isAlpha,
    Char.isUpper, Char.isLower, Char.isDigit] at halnum

theorem legalName_ne_empty {s : String} (h : legalName s = true) : s.data ≠ [] := by
  intro hnil
  simp [legalName, hnil, legalNameChars] at h

theorem joinComma_no_special {ts : List String} (h : ∀ t ∈ ts, legalName t = true)
    {c : Char} (hc : c ∈ (joinComma ts).data) : c ≠ '(' ∧ c ≠ ')' := by
  induction ts with
  | nil => simp [joinComma] at hc
  | cons t rest ih =>
    cases rest with
    | nil =>
      exact ⟨(legalName_no_special (h t (by simp)) hc).1,
             (legalName_no_special (h t (by simp)) hc).2.1⟩
    | cons t' rest' =>
      simp only [joinComma, String.data_append] at hc
      rcases List.mem_append.mp hc with h1 | h2
      · rcases List.mem_append.mp h1 with ha | hb
        · exact ⟨(legalName_no_special (h t (by simp)) ha).1,
                 (legalName_no_special (h t (by simp)) ha).2.1⟩
        · have : c = ',' := by simpa using hb
          subst this
          exact ⟨by decide, by decide⟩
      · exact ih (fun u hu => h u (List.mem_cons_of_mem t hu)) h2

theorem joinComma_ne_empty {ts : List String} (hne : ts ≠ [])
    (h : ∀ t ∈ ts, legalName t = true) : (joinComma ts).data ≠ [] := by
  cases ts with
  | nil => exact absurd rfl hne
  | cons t rest =>
    cases rest with
    | nil => exact legalName_ne_empty (h t (by simp))
    | cons t' rest' =>
      simp only [joinComma, String.data_append]
      intro hnil
      have := legalName_ne_empty (h t (by simp))
      simp only [List.append_assoc, List.append_eq_nil] at hnil
      exact this hnil.1

theorem splitCommas_of_no_comma (cs : List Char) (h : ',' ∉ cs) :
    splitCommas cs = [cs] := by
  induction cs with
  | nil => rfl
  | cons c rest ih =>
    have hc : c ≠ ',' := fun hc => h (hc ▸ List.mem_cons_self c rest)
    have hr : ',' ∉ rest := fun hr => h (List.mem_cons_of_mem c hr)
    simp [splitCommas, ih hr, hc]

theorem splitCommas_append (xs ys : List Char) (h : ',' ∉ xs) :
    splitCommas (xs ++ ',' :: ys) = xs :: splitCommas ys := by
  induction xs with
  | nil => simp [splitCommas]
  | cons c xs' ih =>
    have hc : c ≠ ',' := fun hc => h (hc ▸ List.mem_cons_self c xs')
    have hx : ',' ∉ xs' := fun hx => h (List.mem_cons_of_mem c hx)
    simp only [List.cons_append, splitCommas, if_neg hc, List.append_eq, ih hx]

theorem string_mk_data (s : String) : String.mk s.data = s := rfl

theorem splitCommas_joinComma {ts : List String} (hne : ts ≠ [])
    (h : ∀ t ∈ ts, legalName t = true) :
    ((splitCommas (joinComma ts).data).map (fun cs => String.mk cs)) = ts := by
  induction ts with
  | nil => exact absurd rfl hne
  | cons t rest ih =>
    cases rest with
    | nil =>
      have hnc : ',' ∉ t.data := fun hmem =>
        ((legalName_no_special (h t (by simp)) hmem).2.2.1) rfl
      simp [joinComma, splitCommas_of_no_comma t.data hnc]
    | cons t' rest' =>
      have hnc : ',' ∉ t.data := fun hmem =>
        ((legalName_no_special (h t (by simp)) hmem).2.2.1) rfl
      have hdata : (joinComma (t :: t' :: rest')).data
          = t.data ++ ',' :: (joinComma (t' :: rest')).data := by
        simp [joinComma, String.data_append]
      rw [hdata, splitCommas_append t.data _ hnc]
      simp only [List.map_cons, string_mk_data, List.cons.injEq, true_and]
      exact ih (by simp) (fun u hu => h u (List.mem_cons_of_mem t hu))

/-- The decomposition of the canonical string of a literal. -/
theorem canon_data (l : Literal) :
    l.canon.data = (if l.positive then ([] : List Char) else ['~'])
      ++ l.predicate.data ++ '(' :: ((joinComma l.terms).data ++ [')']) := by
  cases hpos : l.positive <;>
    simp [Literal.canon, hpos, String.data_append]

theorem matchBody_canon (l : Literal) (hl : l.legal = true) (hne : l.terms ≠ []) :
    matchBody (l.predicate.data ++ '(' :: ((joinComma l.terms).data ++ [')']))
      = some (l.predicate.data, (joinComma l.terms).data) := by
  have hlegal : legalName l.predicate = true ∧ ∀ t ∈ l.terms, legalName t = true := by
    simpa [Literal.legal, List.all_eq_true] using hl
  exact matchBody_append _ _ (legalName_ne_empty hlegal.1)
    (fun hmem => ((joinComma_no_special hlegal.2 hmem).1) rfl)
    (joinComma_ne_empty hne hlegal.2)

theorem matchLiteralChars_nosign {c : Char} {rest : List Char}
    (h1 : c ≠ '-') (h2 : c ≠ '~') {p t : List Char}
    (hb : matchBody (c :: rest) = some (p, t)) :
    matchLiteralChars (c :: rest) = some ("", ⟨p⟩, ⟨t⟩) := by
  simp [matchLiteralChars, h1, h2, hb]

theorem matchLiteralChars_tilde {rest : List Char} {p t : List Char}
    (hb : matchBody rest = some (p, t)) :
    matchLiteralChars ('~' :: rest) = some ("~", ⟨p⟩, ⟨t⟩) := by
  have htilde : (⟨['~']⟩ : String) = "~" := by decide
  simp [matchLiteralChars, hb, htilde]

theorem matchLiteralPattern_canon (l : Literal) (hl : l.legal = true) (hne : l.terms ≠ []) :
    matchLiteralPattern l.canon
      = some ((if l.positive then "" else "~"), l.predicate,
          String.mk (joinComma l.terms).data) := by
  have hlegal : legalName l.predicate = true ∧ ∀ t ∈ l.terms, legalName t = true := by
    simpa [Literal.legal, List.all_eq_true] using hl
  have hpdata : l.predicate.data ≠ [] := legalName_ne_empty hlegal.1
  obtain ⟨c, cs, hcs⟩ : ∃ c cs, l.predicate.data = c :: cs := by
    cases hp : l.predicate.data with
    | nil => exact absurd hp hpdata
    | cons c cs => exact ⟨c, cs, rfl⟩
  have hchead : c ≠ '-' ∧ c ≠ '~' := by
    have hmem : c ∈ l.predicate.data := by rw [hcs]; exact List.mem_cons_self c cs
    exact ⟨(legalName_no_special hlegal.1 hmem).2.2.2.1,
           (legalName_no_special hlegal.1 hmem).2.2.2.2⟩
  have hbody := matchBody_canon l hl hne
  have hpred : (⟨c :: cs⟩ : String) = l.predicate := by
    rw [← hcs]
  cases hpos : l.positive with
  | true =>
    have hdata : l.canon.data
        = c :: (cs ++ '(' :: ((joinComma l.terms).data ++ [')'])) := by
      rw [canon_data l, hpos, hcs]; simp
    have hb2 : matchBody (c :: (cs ++ '(' :: ((joinComma l.terms).data ++ [')'])))
        = some (c :: cs, (joinComma l.terms).data) := by
      rw [hcs] at hbody
      simpa using hbody
    rw [matchLiteralPattern, hdata,
      matchLiteralChars_nosign hchead.1 hchead.2 hb2, hpred]
    simp
  | false =>
    have hdata : l.canon.data
        = '~' :: (l.predicate.data ++ '(' :: ((joinComma l.terms).data ++ [')'])) := by
      rw [canon_data l, hpos]; simp
    rw [matchLiteralPattern, hdata, matchLiteralChars_tilde hbody]
    simp

/-- `mkLiteral` succeeds on the components of a legal literal and rebuilds it. -/
theorem mkLiteral_of_legal (l : Literal) (hl : l.legal = true) :
    mkLiteral l.predicate l.terms l.positive = some l := by
  simp [mkLiteral, hl]

theorem parseDlvLiteral_canon (l : Literal) (hl : l.legal = true) (hne : l.terms ≠ []) :
    parseDlvLiteral l.canon = some l := by
  have hlegal : legalName l.predicate = true ∧ ∀ t ∈ l.terms, legalName t = true := by
    simpa [Literal.legal, List.all_eq_true] using hl
  rw [parseDlvLiteral, matchLiteralPattern_canon l hl hne]
  show mkLiteral l.predicate
      ((splitCommas (String.mk (joinComma l.terms).data).data).map (fun cs => String.mk cs))
      ((if l.positive then "" else "~") == "") = some l
  have hterms : ((splitCommas (joinComma l.terms).data).map (fun cs => String.mk cs))
      = l.terms := splitCommas_joinComma hne hlegal.2
  rw [show (String.mk (joinComma l.terms).data).data = (joinComma l.terms).data from rfl,
    hterms]
  have hmk := mkLiteral_of_legal l hl
  cases hpos : l.positive with
  | true =>
    rw [hpos] at hmk
    show mkLiteral l.predicate l.terms true = some l
    exact hmk
  | false =>
    rw [hpos] at hmk
    show mkLiteral l.predicate l.terms false = some l
    exact hmk

/-!
## Claim C7 — literal round-trip and value equality
-/

/-- **C7 counterexample**: `Literal("p", [])` is legally constructed (the
constructor validates the predicate and iterates over the empty term tuple
without error), yet its canonical string form `p()` does not match the
solver's `LITERAL_PATTERN` (the terms group requires at least one
character), so reparsing cannot reproduce the literal. -/
theorem literal_roundtrip_counterexample :
    Literal.legal ⟨"p", [], true⟩ = true
      ∧ Literal.canon ⟨"p", [], true⟩ = "p()"
      ∧ parseDlvLiteral (Literal.canon ⟨"p", [], true⟩) = none := by
  refine ⟨by decide, by decide, by decide⟩

/-- **C7 (amended)**: for every legally constructed Literal *with at least
one term*, parsing its canonical string form with the solver's literal
pattern reproduces an equal Literal (same predicate, same term tuple in the
same order, same polarity); and two such Literals are equal iff their
canonical string forms are equal, in which case their hashes (Python hashes
the canonical string) agree as well. -/
theorem literal_roundtrip_eq (l l₁ l₂ : Literal)
    (hl : l.legal = true) (hne : l.terms ≠ [])
    (h₁ : l₁.legal = true) (hne₁ : l₁.terms ≠ [])
    (h₂ : l₂.legal = true) (hne₂ : l₂.terms ≠ []) :
    parseDlvLiteral l.canon = some l
      ∧ (l₁ = l₂ ↔ l₁.canon = l₂.canon)
      ∧ (l₁.canon = l₂.canon → l₁.canon.hash = l₂.canon.hash) := by
  refine ⟨parseDlvLiteral_canon l hl hne, ⟨?_, ?_⟩, fun h => by rw [h]⟩
  · rintro rfl
    rfl
  · intro h
    have e1 := parseDlvLiteral_canon l₁ h₁ hne₁
    have e2 := parseDlvLiteral_canon l₂ h₂ hne₂
    rw [h, e2] at e1
    exact (Option.some.inj e1).symm

/-- **C7 witness**: the theorem evaluated on a negative binary literal and a
positive unary literal. -/
theorem literal_roundtrip_eq_witness :
    parseDlvLiteral (Literal.canon ⟨"locatedIn", ["germany", "europe"], false⟩)
        = some ⟨"locatedIn", ["germany", "europe"], false⟩
      ∧ ((⟨"country", ["austria"], true⟩ : Literal) = ⟨"neighborOf", ["austria", "germany"], true⟩
          ↔ Literal.canon ⟨"country", ["austria"], true⟩
              = Literal.canon ⟨"neighborOf", ["austria", "germany"], true⟩) := by
  have h := literal_roundtrip_eq ⟨"locatedIn", ["germany", "europe"], false⟩
    ⟨"country", ["austria"], true⟩ ⟨"neighborOf", ["austria", "germany"], true⟩
    (by decide) (by decide) (by decide) (by decide) (by decide) (by decide)
  exact ⟨h.1, h.2.1⟩

/-!
## Membership lemmas for the generator's literal sets
-/

theorem mem_srLocationFacts {g : Generator} {l : Literal} :
    l ∈ g.srLocationFacts
      ↔ ∃ p ∈ g.regionsIndex, ∃ s ∈ p.2, l = locLit s p.1 := by
  simp only [Generator.srLocationFacts, List.mem_toFinset, List.mem_flatMap, List.mem_map]
  constructor
  · rintro ⟨p, hp, s, hs, rfl⟩
    exact ⟨p, hp, s, hs, rfl⟩
  · rintro ⟨p, hp, s, hs, rfl⟩
    exact ⟨p, hp, s, hs, rfl⟩

theorem mem_subregionNames {g : Generator} {r : String} {subs : List String} {s : String}
    (hp : (r, subs) ∈ g.regionsIndex) (hs : s ∈ subs) : s ∈ g.subregionNames := by
  simp only [Generator.subregionNames, List.mem_flatMap]
  exact ⟨(r, subs), hp, hs⟩

theorem locLit_not_in_sr {g : Generator} {c b : String} (hsub : c ∉ g.subregionNames) :
    locLit c b ∉ g.srLocationFacts := by
  intro hmem
  obtain ⟨p, hp, s, hs, heq⟩ := mem_srLocationFacts.mp hmem
  obtain ⟨rfl, -⟩ : c = s ∧ b = p.1 := by
    simpa [locLit] using heq
  exact hsub (mem_subregionNames (r := p.1) (by simpa using hp) hs)

theorem mem_locationFactsSet {g : Generator} {countries : List String}
    {inf infN : Finset String} {l : Literal} :
    l ∈ g.locationFactsSet countries inf infN
      ↔ l ∈ g.srLocationFacts
        ∨ (∃ c ∈ countries, g.discloseReg inf infN c = true ∧ l = g.regLit c)
        ∨ (∃ c ∈ countries, g.discloseSub inf c = true ∧ g.subLit c = some l) := by
  simp only [Generator.locationFactsSet, Finset.mem_union, List.mem_toFinset, List.mem_map,
    List.mem_filterMap, List.mem_filter]
  constructor
  · rintro ((h | ⟨c, ⟨hc, hd⟩, rfl⟩) | ⟨c, ⟨hc, hd⟩, hs⟩)
    · exact Or.inl h
    · exact Or.inr (Or.inl ⟨c, hc, hd, rfl⟩)
    · exact Or.inr (Or.inr ⟨c, hc, hd, hs⟩)
  · rintro (h | ⟨c, hc, hd, rfl⟩ | ⟨c, hc, hd, hs⟩)
    · exact Or.inl (Or.inl h)
    · exact Or.inl (Or.inr ⟨c, ⟨hc, hd⟩, rfl⟩)
    · exact Or.inr ⟨c, ⟨hc, hd⟩, hs⟩

theorem regLit_mem_locationFactsSet_iff {g : Generator} {countries : List String}
    {inf infN : Finset String} {c : String} (hc : c ∈ countries)
    (hsub : c ∉ g.subregionNames)
    (hrs : (g.info c).subregion ≠ some ((g.info c).region)) :
    g.regLit c ∈ g.locationFactsSet countries inf infN
      ↔ g.discloseReg inf infN c = true := by
  rw [mem_locationFactsSet]
  constructor
  · rintro (h | ⟨c', hc', hd, heq⟩ | ⟨c', hc', hd, heq⟩)
    · exact absurd h (locLit_not_in_sr hsub)
    · obtain ⟨rfl, -⟩ : c = c' ∧ (g.info c).region = (g.info c').region := by
        simpa [Generator.regLit, locLit] using heq
      exact hd
    · exfalso
      obtain ⟨s', hs', heq'⟩ : ∃ s', (g.info c').subregion = some s'
          ∧ locLit c' s' = g.regLit c := by
        simpa [Generator.subLit, Option.map_eq_some'] using heq
      obtain ⟨rfl, hsr⟩ : c' = c ∧ s' = (g.info c).region := by
        simpa [Generator.regLit, locLit] using heq'
      exact hrs (hsr ▸ hs')
  · intro hd
    exact Or.inr (Or.inl ⟨c, hc, hd, rfl⟩)

theorem subLit_mem_locationFactsSet_iff {g : Generator} {countries : List String}
    {inf infN : Finset String} {c s : String} (hc : c ∈ countries)
    (hs : (g.info c).subregion = some s)
    (hsub : c ∉ g.subregionNames)
    (hrs : (g.info c).subregion ≠ some ((g.info c).region)) :
    locLit c s ∈ g.locationFactsSet countries inf infN
      ↔ g.discloseSub inf c = true := by
  rw [mem_locationFactsSet]
  constructor
  · rintro (h | ⟨c', hc', hd, heq⟩ | ⟨c', hc', hd, heq⟩)
    · exact absurd h (locLit_not_in_sr hsub)
    · exfalso
      obtain ⟨rfl, hsr⟩ : c = c' ∧ s = (g.info c').region := by
        simpa [Generator.regLit, locLit] using heq
      exact hrs (by rw [hs, hsr])
    · obtain ⟨s', hs', heq'⟩ : ∃ s', (g.info c').subregion = some s'
          ∧ locLit c' s' = locLit c s := by
        simpa [Generator.subLit, Option.map_eq_some'] using heq
      obtain ⟨rfl, rfl⟩ : c' = c ∧ s' = s := by
        simpa [locLit] using heq'
      exact hd
  · intro hd
    refine Or.inr (Or.inr ⟨c, hc, hd, ?_⟩)
    rw [Generator.subLit, hs]
    rfl

theorem mem_neighborFactsSet {g : Generator} {countries : List String} {l : Literal} :
    l ∈ g.neighborFactsSet countries
      ↔ ∃ c ∈ countries, ∃ n, n ∈ (g.info c).neighbors ∧ n ∈ countries
          ∧ (l = nbLit c n ∨ l = nbLit n c) := by
  simp only [Generator.neighborFactsSet, List.mem_toFinset, List.mem_flatMap, List.mem_filter,
    List.elem_eq_mem, decide_eq_true_eq, List.mem_cons, List.mem_singleton,
    List.not_mem_nil, or_false]
  constructor
  · rintro ⟨c, hc, n, ⟨hn, hnc⟩, h⟩
    exact ⟨c, hc, n, hn, hnc, h⟩
  · rintro ⟨c, hc, n, hn, hnc, h⟩
    exact ⟨c, hc, n, ⟨hn, hnc⟩, h⟩

/-!
## The specified fact-set computation: disclosed locations vs. ground truth
-/

theorem locationFactsSet_subset_allLocationsSet (g : Generator) (countries : List String)
    (inf infN : Finset String) :
    g.locationFactsSet countries inf infN ⊆ g.allLocationsSet countries := by
  intro l hl
  rcases mem_locationFactsSet.mp hl with h | ⟨c, hc, -, rfl⟩ | ⟨c, hc, -, hs⟩
  · exact Finset.mem_union_left _ (Finset.mem_union_left _ h)
  · refine Finset.mem_union_left _ (Finset.mem_union_right _ ?_)
    simp only [List.mem_toFinset, List.mem_map]
    exact ⟨c, hc, rfl⟩
  · refine Finset.mem_union_right _ ?_
    simp only [List.mem_toFinset, List.mem_filterMap]
    exact ⟨c, hc, hs⟩

/-- The disclosure logic of lines 319-334 never discloses a located-in fact
outside the ground truth: for every variant and every choice of targets,
the `location_facts` the source is written to hand the solver are a subset
of `all_locations`.  (A property of the specified fact sets; the source run
itself aborts constructing them, see `located_in_rejected_in_country_loop`.) -/
theorem disclosed_locations_subset_ground_truth (g : Generator)
    (derive : Finset Literal → Finset Literal) (shuffled : List String)
    (infOpt : Option (List String)) (minimal : Bool) :
    (g.generateSample derive shuffled infOpt minimal).locationFacts
      ⊆ (g.generateSample derive shuffled infOpt minimal).allLocations := by
  simp only [Generator.generateSample]
  exact locationFactsSet_subset_allLocationsSet g shuffled _ _

/-!
## The specified fact-set computation: neighbor facts
-/

/-- The neighbor-fact set of lines 336-340 contains `neighborOf(a,b)` (and
by symmetry `neighborOf(b,a)`) for exactly those pairs where one country is
a registered neighbor of the other and both are in the working list, so the
set is symmetric and registered neighbors outside the working list
contribute nothing; and it feeds the solver input in every variant.  (A
property of the specified fact sets; the source run aborts before reaching
these lines, see `located_in_rejected_before_neighbor_facts`.) -/
theorem neighbor_facts_characterization (g : Generator)
    (derive : Finset Literal → Finset Literal) (shuffled : List String)
    (infOpt : Option (List String)) (minimal : Bool) :
    (∀ a b : String,
        nbLit a b ∈ (g.generateSample derive shuffled infOpt minimal).neighborFacts
          ↔ a ∈ shuffled ∧ b ∈ shuffled
              ∧ (b ∈ (g.info a).neighbors ∨ a ∈ (g.info b).neighbors))
      ∧ (∀ l, l ∈ (g.generateSample derive shuffled infOpt minimal).neighborFacts
          → ∃ a b, l = nbLit a b)
      ∧ (g.generateSample derive shuffled infOpt minimal).neighborFacts
          ⊆ (g.generateSample derive shuffled infOpt minimal).inputFacts := by
  simp only [Generator.generateSample]
  refine ⟨?_, ?_, ?_⟩
  · intro a b
    rw [mem_neighborFactsSet]
    constructor
    · rintro ⟨c, hc, n, hn, hnc, h | h⟩
      · obtain ⟨rfl, rfl⟩ : a = c ∧ b = n := by simpa [nbLit] using h
        exact ⟨hc, hnc, Or.inl hn⟩
      · obtain ⟨rfl, rfl⟩ : a = n ∧ b = c := by simpa [nbLit] using h
        exact ⟨hnc, hc, Or.inr hn⟩
    · rintro ⟨ha, hb, hadj | hadj⟩
      · exact ⟨a, ha, b, hadj, hb, Or.inl rfl⟩
      · exact ⟨b, hb, a, hadj, ha, Or.inr rfl⟩
  · intro l hl
    obtain ⟨c, -, n, -, -, h | h⟩ := mem_neighborFactsSet.mp hl
    · exact ⟨c, n, h⟩
    · exact ⟨n, c, h⟩
  · intro l hl
    exact Finset.mem_union_left _ (Finset.mem_union_left _ hl)

/-!
## The specified fact-set computation: region and subregion literals
-/

theorem regionClassLit_mem_classFactsSet {g : Generator} {countries : List String}
    {r : String} {subs : List String} (hp : (r, subs) ∈ g.regionsIndex) :
    regionClassLit r ∈ g.classFactsSet countries := by
  apply Finset.mem_union_left
  simp only [Generator.regionClassFacts, List.mem_toFinset, List.mem_flatMap]
  exact ⟨(r, subs), hp, List.mem_cons_self _ _⟩

theorem subregionClassLit_mem_classFactsSet {g : Generator} {countries : List String}
    {r s : String} {subs : List String} (hp : (r, subs) ∈ g.regionsIndex) (hs : s ∈ subs) :
    subregionClassLit s ∈ g.classFactsSet countries := by
  apply Finset.mem_union_left
  simp only [Generator.regionClassFacts, List.mem_toFinset, List.mem_flatMap]
  exact ⟨(r, subs), hp, List.mem_cons_of_mem _ (List.mem_map_of_mem _ hs)⟩

theorem srLocationFacts_subset_locationFactsSet {g : Generator} {countries : List String}
    {inf infN : Finset String} :
    g.srLocationFacts ⊆ g.locationFactsSet countries inf infN := fun _ hl =>
  Finset.mem_union_left _ (Finset.mem_union_left _ hl)

theorem locationFactsSet_subset_inputFactsSet {g : Generator} {countries : List String}
    {inf infN : Finset String} :
    g.locationFactsSet countries inf infN ⊆ g.inputFactsSet countries inf infN := fun _ hl =>
  Finset.mem_union_left _ (Finset.mem_union_right _ hl)

theorem classFactsSet_subset_inputFactsSet {g : Generator} {countries : List String}
    {inf infN : Finset String} (h : g.classFacts = true) :
    g.classFactsSet countries ⊆ g.inputFactsSet countries inf infN := fun _ hl =>
  Finset.mem_union_right _ (by rw [if_pos h]; exact hl)

/-- In the specified fact sets, regardless of variant and targets, the
`region(r)` and `subregion(s)` literals belong to the class-facts set, and
the located-in literal for every subregion→region pair belongs to the full
location-facts set and to the disclosed location facts fed to the solver;
the class literals additionally reach the solver input exactly when class
facts are enabled — not unconditionally.  (The source run aborts
constructing the first located-in literal of line 294, see
`located_in_literal_construction_fails`.) -/
theorem regions_and_subregions_facts (g : Generator)
    (derive : Finset Literal → Finset Literal) (shuffled : List String)
    (infOpt : Option (List String)) (minimal : Bool)
    (r : String) (subs : List String) (hp : (r, subs) ∈ g.regionsIndex) :
    regionClassLit r ∈ (g.generateSample derive shuffled infOpt minimal).classFacts
      ∧ (g.classFacts = true →
          regionClassLit r ∈ (g.generateSample derive shuffled infOpt minimal).inputFacts)
      ∧ ∀ s ∈ subs,
          subregionClassLit s ∈ (g.generateSample derive shuffled infOpt minimal).classFacts
          ∧ locLit s r ∈ (g.generateSample derive shuffled infOpt minimal).allLocations
          ∧ locLit s r ∈ (g.generateSample derive shuffled infOpt minimal).locationFacts
          ∧ locLit s r ∈ (g.generateSample derive shuffled infOpt minimal).inputFacts
          ∧ (g.classFacts = true →
              subregionClassLit s
                ∈ (g.generateSample derive shuffled infOpt minimal).inputFacts) := by
  simp only [Generator.generateSample]
  refine ⟨regionClassLit_mem_classFactsSet hp,
    fun hcf => classFactsSet_subset_inputFactsSet hcf (regionClassLit_mem_classFactsSet hp),
    fun s hs => ?_⟩
  have hsr : locLit s r ∈ g.srLocationFacts :=
    mem_srLocationFacts.mpr ⟨(r, subs), hp, s, hs, rfl⟩
  have hloc : locLit s r ∈ g.locationFactsSet shuffled (chooseTargets shuffled infOpt)
      (g.targetNeighbors (chooseTargets shuffled infOpt)) :=
    srLocationFacts_subset_locationFactsSet hsr
  exact ⟨subregionClassLit_mem_classFactsSet hp hs,
    Finset.mem_union_left _ (Finset.mem_union_left _ hsr),
    hloc,
    locationFactsSet_subset_inputFactsSet hloc,
    fun hcf => classFactsSet_subset_inputFactsSet hcf
      (subregionClassLit_mem_classFactsSet hp hs)⟩

/-- The preceding theorem evaluated on `exGenC` (class facts enabled). -/
theorem regions_and_subregions_facts_witness :
    regionClassLit "europe"
        ∈ (exGenC.generateSample (fun _ => ∅) ["austria", "belgium"] none false).classFacts
      ∧ locLit "westernEurope" "europe"
          ∈ (exGenC.generateSample (fun _ => ∅) ["austria", "belgium"] none false).inputFacts
      ∧ regionClassLit "europe"
          ∈ (exGenC.generateSample (fun _ => ∅) ["austria", "belgium"] none false).inputFacts := by
  have h := regions_and_subregions_facts exGenC (fun _ => ∅) ["austria", "belgium"] none false
    "europe" ["westernEurope"] (by decide)
  exact ⟨h.1, (h.2.2 "westernEurope" (by decide)).2.2.2.1, h.2.1 rfl⟩

/-!
## The specified fact-set computation: full disclosure on an empty target set
-/

theorem locationFactsSet_empty_targets (g : Generator) (countries : List String) :
    g.locationFactsSet countries ∅ (g.targetNeighbors ∅) = g.allLocationsSet countries := by
  have hN : g.targetNeighbors ∅ = ∅ := by
    simp [Generator.targetNeighbors]
  rw [hN]
  have hreg : ∀ c ∈ countries, g.discloseReg ∅ ∅ c = true := by
    intro c _
    cases hp : g.problem <;> simp [Generator.discloseReg, hp]
  have hsub : ∀ c ∈ countries, g.discloseSub ∅ c = true := by
    intro c _
    cases hp : g.problem <;> simp [Generator.discloseSub, hp]
  rw [Generator.locationFactsSet, Generator.allLocationsSet,
    List.filter_eq_self.mpr hreg, List.filter_eq_self.mpr hsub]

theorem inputFactsSet_empty_targets (g : Generator) (countries : List String)
    (h : g.classFacts = true) :
    g.inputFactsSet countries ∅ (g.targetNeighbors ∅)
      = g.classFactsSet countries ∪ g.neighborFactsSet countries
          ∪ g.allLocationsSet countries := by
  rw [Generator.inputFactsSet, locationFactsSet_empty_targets, if_pos h]
  ext l
  simp only [Finset.mem_union]
  tauto

/-- In the specified fact sets, an empty target set discloses every
location fact; and if the class facts are part of the solver input
(`class_facts = True`), the restricted answer set coincides with the
perfect-knowledge answer set (the solver being a deterministic function of
the disclosed set), the missing-knowledge set is empty, and the sample
contains zero prediction targets.  With class facts disabled the
perfect-knowledge run still receives them (line 367 vs. 344-345), so the
coincidence needs that hypothesis.  (The source run aborts earlier, see
`located_in_rejected_with_empty_targets`.) -/
theorem empty_targets_idempotence (g : Generator)
    (derive : Finset Literal → Finset Literal) (shuffled : List String)
    (infOpt : Option (List String)) (minimal : Bool)
    (hinf : (g.generateSample derive shuffled infOpt minimal).infCountries = ∅) :
    (g.generateSample derive shuffled infOpt minimal).locationFacts
        = (g.generateSample derive shuffled infOpt minimal).allLocations
      ∧ (g.classFacts = true →
          (g.generateSample derive shuffled infOpt minimal).answer.all
              = (g.generateSample derive shuffled infOpt minimal).perfect
          ∧ (g.generateSample derive shuffled infOpt minimal).missing = ∅
          ∧ (g.generateSample derive shuffled infOpt minimal).predictions = ∅) := by
  simp only [Generator.generateSample] at hinf ⊢
  rw [hinf]
  refine ⟨locationFactsSet_empty_targets g shuffled, fun hcf => ?_⟩
  have hin : (g.restrictedAnswer derive shuffled ∅ (g.targetNeighbors ∅)).all
      = g.perfectSet derive shuffled := by
    rw [Generator.restrictedAnswer, inputFactsSet_empty_targets g shuffled hcf,
      Generator.perfectSet]
  have hmiss : g.missingSet derive shuffled ∅ (g.targetNeighbors ∅) = ∅ := by
    rw [Generator.missingSet, hin, Finset.sdiff_self]
  exact ⟨hin, hmiss, by rw [hmiss]; exact Finset.filter_empty _⟩

/-- The preceding theorem evaluated on `exGenC` (class facts enabled) with
an empty working list. -/
theorem empty_targets_idempotence_witness :
    (exGenC.generateSample (fun _ => ∅) [] none false).missing = ∅
      ∧ (exGenC.generateSample (fun _ => ∅) [] none false).predictions = ∅ := by
  have h := empty_targets_idempotence exGenC (fun _ => ∅) [] none false (by decide)
  exact ⟨(h.2 rfl).2.1, (h.2 rfl).2.2⟩

/-!
## The specified fact-set computation: per-variant visibility rules
-/

/-- The disclosure logic of lines 319-334, applied to the specified fact
sets, follows the per-variant visibility rule: under S1 the subregion
located-in literal is disclosed whenever the country has a subregion and
the region literal is disclosed iff the country is not a target; under S2
both are disclosed iff the country is not a target; under S3 the region
literal is disclosed iff the country is neither a target nor a neighbor of
a target, and the subregion literal iff the country is not a target.
The hypotheses rule out name collisions between countries and subregions
and between a country's region and subregion, under which distinct location
facts would be represented by one literal.  (The source run aborts
constructing these literals, see `located_in_rejected_before_visibility`.) -/
theorem variant_visibility_rules (g : Generator)
    (derive : Finset Literal → Finset Literal) (shuffled : List String)
    (infOpt : Option (List String)) (minimal : Bool) (c : String)
    (hc : c ∈ (g.generateSample derive shuffled infOpt minimal).countries)
    (hsub : c ∉ g.subregionNames)
    (hrs : (g.info c).subregion ≠ some ((g.info c).region)) :
    (g.problem = .S1 →
        (∀ s, (g.info c).subregion = some s →
          locLit c s ∈ (g.generateSample derive shuffled infOpt minimal).locationFacts)
        ∧ (g.regLit c ∈ (g.generateSample derive shuffled infOpt minimal).locationFacts
            ↔ c ∉ (g.generateSample derive shuffled infOpt minimal).infCountries))
      ∧ (g.problem = .S2 →
          (g.regLit c ∈ (g.generateSample derive shuffled infOpt minimal).locationFacts
            ↔ c ∉ (g.generateSample derive shuffled infOpt minimal).infCountries)
          ∧ (∀ s, (g.info c).subregion = some s →
              (locLit c s ∈ (g.generateSample derive shuffled infOpt minimal).locationFacts
                ↔ c ∉ (g.generateSample derive shuffled infOpt minimal).infCountries)))
      ∧ (g.problem = .S3 →
          (g.regLit c ∈ (g.generateSample derive shuffled infOpt minimal).locationFacts
            ↔ c ∉ (g.generateSample derive shuffled infOpt minimal).infCountries
              ∧ c ∉ (g.generateSample derive shuffled infOpt minimal).infNeighbors)
          ∧ (∀ s, (g.info c).subregion = some s →
              (locLit c s ∈ (g.generateSample derive shuffled infOpt minimal).locationFacts
                ↔ c ∉ (g.generateSample derive shuffled infOpt minimal).infCountries))) := by
  simp only [Generator.generateSample] at hc ⊢
  refine ⟨fun h1 => ⟨?_, ?_⟩, fun h2 => ⟨?_, ?_⟩, fun h3 => ⟨?_, ?_⟩⟩
  · intro s hs
    rw [subLit_mem_locationFactsSet_iff hc hs hsub hrs]
    simp [Generator.discloseSub, h1]
  · rw [regLit_mem_locationFactsSet_iff hc hsub hrs]
    simp [Generator.discloseReg, h1]
  · rw [regLit_mem_locationFactsSet_iff hc hsub hrs]
    simp [Generator.discloseReg, h2]
  · intro s hs
    rw [subLit_mem_locationFactsSet_iff hc hs hsub hrs]
    simp [Generator.discloseSub, h2]
  · rw [regLit_mem_locationFactsSet_iff hc hsub hrs]
    simp [Generator.discloseReg, h3]
  · intro s hs
    rw [subLit_mem_locationFactsSet_iff hc hs hsub hrs]
    simp [Generator.discloseSub, h3]

/-- The preceding theorem evaluated on `exGenC` (variant S2) with `belgium`
as the explicit target. -/
theorem variant_visibility_rules_witness :
    (exGenC.regLit "austria"
        ∈ (exGenC.generateSample (fun _ => ∅) ["austria", "belgium"]
            (some ["belgium"]) true).locationFacts
      ↔ "austria" ∉ (exGenC.generateSample (fun _ => ∅) ["austria", "belgium"]
            (some ["belgium"]) true).infCountries) := by
  have h := variant_visibility_rules exGenC (fun _ => ∅) ["austria", "belgium"]
    (some ["belgium"]) true "austria" (by decide) (by decide) (by decide)
  exact (h.2.1 rfl).1

/-!
## The specified fact-set computation: prediction targets and the minimal filter
-/

theorem keepLiteral_true_iff {inf : Finset String} {l : Literal}
    (hlen : l.terms.length ≤ 2) :
    keepLiteral true inf l = true
      ↔ l.predicate = "region" ∨ l.predicate = "subregion" ∨ ∃ t ∈ l.terms, t ∈ inf := by
  rcases hterms : l.terms with _ | ⟨t1, _ | ⟨t2, rest⟩⟩
  · simp [keepLiteral, mentionsTarget, hterms]
  · simp [keepLiteral, mentionsTarget, hterms, or_assoc]
  · rcases rest with _ | ⟨t3, rest'⟩
    · simp [keepLiteral, mentionsTarget, hterms, or_assoc]
    · rw [hterms] at hlen
      simp at hlen

/-- In the specified fact sets, the missing-knowledge set is exactly
perfect knowledge minus (the disclosed solver input ∪ the restricted run's
inferences); with `minimal = False` every missing literal becomes a
prediction target, and with `minimal = True` a prediction target or an
inference is kept iff its predicate is `region` or `subregion` or one of
its (at most two) terms is a target country.  (The source run aborts before
any of this is computed, see `located_in_rejected_before_predictions`.) -/
theorem prediction_targets_and_minimal_filter (g : Generator)
    (derive : Finset Literal → Finset Literal) (shuffled : List String)
    (infOpt : Option (List String)) (minimal : Bool) :
    (g.generateSample derive shuffled infOpt minimal).missing
        = (g.generateSample derive shuffled infOpt minimal).perfect
            \ ((g.generateSample derive shuffled infOpt minimal).inputFacts
                ∪ (g.generateSample derive shuffled infOpt minimal).answer.inferences)
      ∧ (minimal = false →
          (g.generateSample derive shuffled infOpt minimal).predictions
              = (g.generateSample derive shuffled infOpt minimal).missing)
      ∧ (minimal = true → ∀ l : Literal, l.terms.length ≤ 2 →
          ((l ∈ (g.generateSample derive shuffled infOpt minimal).predictions
              ↔ l ∈ (g.generateSample derive shuffled infOpt minimal).missing
                ∧ (l.predicate = "region" ∨ l.predicate = "subregion"
                    ∨ ∃ t ∈ l.terms,
                        t ∈ (g.generateSample derive shuffled infOpt minimal).infCountries))
          ∧ (l ∈ (g.generateSample derive shuffled infOpt minimal).inferred
              ↔ l ∈ (g.generateSample derive shuffled infOpt minimal).answer.inferences
                ∧ (l.predicate = "region" ∨ l.predicate = "subregion"
                    ∨ ∃ t ∈ l.terms,
                        t ∈ (g.generateSample derive shuffled infOpt minimal).infCountries)))) := by
  simp only [Generator.generateSample]
  refine ⟨?_, fun hmin => ?_, fun hmin l hlen => ?_⟩
  · simp only [Generator.missingSet, Generator.restrictedAnswer, AnswerSet.all, runSolver]
  · subst hmin
    exact Finset.filter_eq_self.mpr fun l _ => by simp [keepLiteral]
  · subst hmin
    constructor
    · rw [Finset.mem_filter, keepLiteral_true_iff hlen]
    · rw [Finset.mem_filter, keepLiteral_true_iff hlen]

/-- The preceding theorem evaluated on `exGenC` with a solver that infers
nothing and `minimal = True`. -/
theorem prediction_targets_and_minimal_filter_witness :
    ((locLit "austria" "europe")
        ∈ (exGenC.generateSample (fun _ => ∅) ["austria", "belgium"]
            (some ["belgium"]) true).predictions
      ↔ (locLit "austria" "europe")
            ∈ (exGenC.generateSample (fun _ => ∅) ["austria", "belgium"]
                (some ["belgium"]) true).missing
          ∧ ((locLit "austria" "europe").predicate = "region"
              ∨ (locLit "austria" "europe").predicate = "subregion"
              ∨ ∃ t ∈ (locLit "austria" "europe").terms,
                  t ∈ (exGenC.generateSample (fun _ => ∅) ["austria", "belgium"]
                      (some ["belgium"]) true).infCountries)) := by
  have h := prediction_targets_and_minimal_filter exGenC (fun _ => ∅)
    ["austria", "belgium"] (some ["belgium"]) true
  exact (h.2.2 rfl (locLit "austria" "europe") (by decide)).1

/-!
## Lemmas about the country splitter
-/

theorem mem_eligible {g : Generator} {a : String} :
    a ∈ g.eligible ↔ a ∈ g.names ∧ (g.info a).neighbors ≠ [] := by
  rw [Generator.eligible, sortStrings, (List.perm_insertionSort _ _).mem_iff,
    List.mem_filter]
  simp [List.length_pos]

theorem eligible_nodup {g : Generator} (hnodup : g.names.Nodup) : g.eligible.Nodup :=
  ((List.perm_insertionSort _ _).nodup_iff).mpr (hnodup.filter _)

theorem splitLoop_eq_some {g : Generator} {l : List (List String)}
    {t : List String × List String × List String}
    (h : g.splitLoop l = some t) : ∃ s ∈ l, g.splitAttempt s = some t := by
  induction l with
  | nil => simp [Generator.splitLoop] at h
  | cons s rest ih =>
    cases ha : g.splitAttempt s with
    | some t' =>
      simp only [Generator.splitLoop, ha] at h
      exact ⟨s, List.mem_cons_self _ _, by rw [ha, h]⟩
    | none =>
      simp only [Generator.splitLoop, ha] at h
      obtain ⟨s', hs', h'⟩ := ih h
      exact ⟨s', List.mem_cons_of_mem _ hs', h'⟩

theorem splitLoop_eq_none {g : Generator} {l : List (List String)}
    (h : ∀ s ∈ l, g.splitAttempt s = none) : g.splitLoop l = none := by
  induction l with
  | nil => rfl
  | cons s rest ih =>
    simp only [Generator.splitLoop, h s (List.mem_cons_self _ _)]
    exact ih fun s' hs' => h s' (List.mem_cons_of_mem _ hs')

theorem splitLoop_ne_none {g : Generator} {l : List (List String)} {s : List String}
    {t : List String × List String × List String}
    (hs : s ∈ l) (h : g.splitAttempt s = some t) :
    ∃ t', g.splitLoop l = some t' := by
  induction l with
  | nil => cases hs
  | cons a rest ih =>
    cases ha : g.splitAttempt a with
    | some t' => exact ⟨t', by simp only [Generator.splitLoop, ha]⟩
    | none =>
      rcases List.mem_cons.mp hs with rfl | hmem
      · rw [ha] at h
        cases h
      · obtain ⟨t', ht'⟩ := ih hmem
        exact ⟨t', by simp only [Generator.splitLoop, ha]; exact ht'⟩

theorem splitCountries_ok {g : Generator} {shuffles : Nat → List String}
    {t : List String × List String × List String}
    (h : g.splitCountries shuffles = .ok t) :
    ∃ i < MAX_ATTEMPTS, g.splitAttempt (shuffles i) = some t := by
  rw [Generator.splitCountries] at h
  cases hl : g.splitLoop ((List.range MAX_ATTEMPTS).map shuffles) with
  | none => rw [hl] at h; cases h
  | some t' =>
    rw [hl] at h
    obtain rfl : t' = t := by cases h; rfl
    obtain ⟨s, hs, ha⟩ := splitLoop_eq_some hl
    obtain ⟨i, hi, rfl⟩ := List.mem_map.mp hs
    exact ⟨i, List.mem_range.mp hi, ha⟩

/-- The complete description of a successful split attempt. -/
theorem splitAttempt_props {g : Generator} {s train dev test : List String}
    (hnodup : g.names.Nodup) (hperm : s.Perm g.eligible)
    (hok : g.splitAttempt s = some (train, dev, test)) :
    dev.length = min NUM_EVAL_COUNTRIES g.eligible.length
      ∧ test.length = min NUM_EVAL_COUNTRIES (g.eligible.length - NUM_EVAL_COUNTRIES)
      ∧ Disjoint dev.toFinset test.toFinset
      ∧ Disjoint train.toFinset dev.toFinset
      ∧ Disjoint train.toFinset test.toFinset
      ∧ train.toFinset ∪ dev.toFinset ∪ test.toFinset = g.names.toFinset
      ∧ (∀ c ∈ dev ++ test, (g.info c).neighbors ≠ [])
      ∧ (∀ n ∈ g.names, (g.info n).neighbors = [] → n ∈ train)
      ∧ (∀ c ∈ dev ++ test, ∃ n ∈ (g.info c).neighbors,
          n ∉ dev.toFinset ∪ test.toFinset)
      ∧ train.Sorted (fun a b => a.data ≤ b.data)
      ∧ dev.Sorted (fun a b => a.data ≤ b.data)
      ∧ test.Sorted (fun a b => a.data ≤ b.data) := by
  classical
  simp only [Generator.splitAttempt] at hok
  split at hok
  case isTrue hcond =>
    obtain ⟨htrain, hdev, htest⟩ :
        sortStrings (s.drop (2 * NUM_EVAL_COUNTRIES)
            ++ g.names.filter fun n => (g.info n).neighbors.isEmpty) = train
        ∧ sortStrings (s.take NUM_EVAL_COUNTRIES) = dev
        ∧ sortStrings ((s.drop NUM_EVAL_COUNTRIES).take NUM_EVAL_COUNTRIES) = test := by
      simpa [Prod.ext_iff] using hok
    have hperm_dev : dev.Perm (s.take NUM_EVAL_COUNTRIES) := by
      rw [← hdev]; exact List.perm_insertionSort _ _
    have hperm_test : test.Perm ((s.drop NUM_EVAL_COUNTRIES).take NUM_EVAL_COUNTRIES) := by
      rw [← htest]; exact List.perm_insertionSort _ _
    have hperm_train : train.Perm (s.drop (2 * NUM_EVAL_COUNTRIES)
        ++ g.names.filter fun n => (g.info n).neighbors.isEmpty) := by
      rw [← htrain]; exact List.perm_insertionSort _ _
    have hsnodup : s.Nodup := hperm.nodup_iff.mpr (eligible_nodup hnodup)
    have hdd : (s.drop NUM_EVAL_COUNTRIES).drop NUM_EVAL_COUNTRIES
        = s.drop (2 * NUM_EVAL_COUNTRIES) := by
      rw [List.drop_drop]
      norm_num [two_mul]
    have hs2 : (s.drop NUM_EVAL_COUNTRIES).take NUM_EVAL_COUNTRIES
        ++ s.drop (2 * NUM_EVAL_COUNTRIES) = s.drop NUM_EVAL_COUNTRIES := by
      rw [← hdd]
      exact List.take_append_drop _ _
    have hs1 : s.take NUM_EVAL_COUNTRIES
        ++ ((s.drop NUM_EVAL_COUNTRIES).take NUM_EVAL_COUNTRIES
            ++ s.drop (2 * NUM_EVAL_COUNTRIES)) = s := by
      rw [hs2]
      exact List.take_append_drop _ _
    have hsplit_nodup : (s.take NUM_EVAL_COUNTRIES
        ++ ((s.drop NUM_EVAL_COUNTRIES).take NUM_EVAL_COUNTRIES
            ++ s.drop (2 * NUM_EVAL_COUNTRIES))).Nodup := by
      rw [hs1]; exact hsnodup
    rw [List.nodup_append] at hsplit_nodup
    obtain ⟨-, h23, h123⟩ := hsplit_nodup
    rw [List.nodup_append] at h23
    obtain ⟨-, -, h23d⟩ := h23
    have hmem_s : ∀ a ∈ s, a ∈ g.names ∧ (g.info a).neighbors ≠ [] := fun a ha =>
      mem_eligible.mp (hperm.subset ha)
    have hmem_z : ∀ a, (a ∈ g.names.filter fun n => (g.info n).neighbors.isEmpty)
        ↔ a ∈ g.names ∧ (g.info a).neighbors = [] := by
      intro a
      rw [List.mem_filter, List.isEmpty_iff]
    have ht1_sub : ∀ a ∈ s.take NUM_EVAL_COUNTRIES, a ∈ s := fun a ha =>
      List.mem_of_mem_take ha
    have ht2_sub : ∀ a ∈ (s.drop NUM_EVAL_COUNTRIES).take NUM_EVAL_COUNTRIES, a ∈ s :=
      fun a ha => List.mem_of_mem_drop (List.mem_of_mem_take ha)
    have ht3_sub : ∀ a ∈ s.drop (2 * NUM_EVAL_COUNTRIES), a ∈ s := fun a ha =>
      List.mem_of_mem_drop ha
    -- disjointness of the eval sets
    have hdisj_dev_test : Disjoint dev.toFinset test.toFinset := by
      rw [Finset.disjoint_left]
      intro a ha hb
      rw [List.mem_toFinset, hperm_dev.mem_iff] at ha
      rw [List.mem_toFinset, hperm_test.mem_iff] at hb
      exact h123 ha (List.mem_append_left _ hb)
    have htrain_mem : ∀ a, a ∈ train ↔ a ∈ s.drop (2 * NUM_EVAL_COUNTRIES)
        ∨ (a ∈ g.names ∧ (g.info a).neighbors = []) := by
      intro a
      rw [hperm_train.mem_iff, List.mem_append, hmem_z]
    have hdisj_train_dev : Disjoint train.toFinset dev.toFinset := by
      rw [Finset.disjoint_left]
      intro a ha hb
      rw [List.mem_toFinset, htrain_mem] at ha
      rw [List.mem_toFinset, hperm_dev.mem_iff] at hb
      rcases ha with ha | ⟨-, hz⟩
      · exact h123 hb (List.mem_append_right _ ha)
      · exact (hmem_s a (ht1_sub a hb)).2 hz
    have hdisj_train_test : Disjoint train.toFinset test.toFinset := by
      rw [Finset.disjoint_left]
      intro a ha hb
      rw [List.mem_toFinset, htrain_mem] at ha
      rw [List.mem_toFinset, hperm_test.mem_iff] at hb
      rcases ha with ha | ⟨-, hz⟩
      · exact h23d hb ha
      · exact (hmem_s a (ht2_sub a hb)).2 hz
    -- the partition covers exactly the known names
    have hunion : train.toFinset ∪ dev.toFinset ∪ test.toFinset = g.names.toFinset := by
      ext a
      simp only [Finset.mem_union, List.mem_toFinset, htrain_mem, hperm_dev.mem_iff,
        hperm_test.mem_iff]
      constructor
      · rintro (((ha | ⟨hn, -⟩) | ha) | ha)
        · exact (hmem_s a (ht3_sub a ha)).1
        · exact hn
        · exact (hmem_s a (ht1_sub a ha)).1
        · exact (hmem_s a (ht2_sub a ha)).1
      · intro hn
        by_cases hz : (g.info a).neighbors = []
        · exact Or.inl (Or.inl (Or.inr ⟨hn, hz⟩))
        · have : a ∈ s := hperm.mem_iff.mpr (mem_eligible.mpr ⟨hn, hz⟩)
          rw [← hs1] at this
          rcases List.mem_append.mp this with h1 | h23'
          · exact Or.inl (Or.inr h1)
          · rcases List.mem_append.mp h23' with h2 | h3
            · exact Or.inr h2
            · exact Or.inl (Or.inl (Or.inl h3))
    -- the validity constraint
    have hvalid : ∀ c ∈ dev ++ test, ∃ n ∈ (g.info c).neighbors,
        n ∉ dev.toFinset ∪ test.toFinset := by
      intro c hc
      rw [List.all_eq_true] at hcond
      have hc' : c ∈ sortStrings (s.take NUM_EVAL_COUNTRIES)
          ++ sortStrings ((s.drop NUM_EVAL_COUNTRIES).take NUM_EVAL_COUNTRIES) := by
        rw [hdev, htest]
        exact hc
      have := hcond c hc'
      rw [List.any_eq_true] at this
      obtain ⟨n, hn, hdec⟩ := this
      rw [decide_eq_true_eq] at hdec
      refine ⟨n, hn, ?_⟩
      rw [hdev, htest] at hdec
      exact hdec
    refine ⟨?_, ?_, hdisj_dev_test, hdisj_train_dev, hdisj_train_test, hunion, ?_, ?_,
      hvalid, ?_, ?_, ?_⟩
    · rw [hperm_dev.length_eq, List.length_take, hperm.length_eq]
    · rw [hperm_test.length_eq, List.length_take, List.length_drop, hperm.length_eq]
    · intro c hc
      rcases List.mem_append.mp hc with h | h
      · exact (hmem_s c (ht1_sub c (hperm_dev.subset h))).2
      · exact (hmem_s c (ht2_sub c (hperm_test.subset h))).2
    · intro n hn hz
      rw [htrain_mem]
      exact Or.inr ⟨hn, hz⟩
    · rw [← htrain]; exact List.sorted_insertionSort _ _
    · rw [← hdev]; exact List.sorted_insertionSort _ _
    · rw [← htest]; exact List.sorted_insertionSort _ _
  case isFalse => cases hok

/-!
## Claim C2 — the train/dev/test partition
-/

/-- **C2 counterexample**: a successful call need not return evaluation
lists of size `NUM_EVAL_COUNTRIES`: on `gAZ` only one country has a
neighbor, the (only) attempt succeeds, and dev has length 1 while test is
empty. -/
theorem split_partition_counterexample :
    gAZ.splitCountries (fun _ => ["a"]) = .ok (["z"], ["a"], [])
      ∧ (["a"] : List String).length ≠ NUM_EVAL_COUNTRIES := by
  decide

/-- **C2 (amended)**: for every successful call of the splitter on a
registry in which at least `2 * NUM_EVAL_COUNTRIES` countries have a
neighbor, the returned train, dev, and test lists are pairwise disjoint and
their union is exactly the set of all known country names; dev and test
each contain exactly `NUM_EVAL_COUNTRIES` (20) names drawn only from
countries with at least one neighbor; every zero-neighbor country appears
in train; and all three lists are sorted.  (Without the size bound, dev and
test are whatever prefix of the eligible pool exists, as the counterexample
shows.) -/
theorem split_partition_properties (g : Generator) (shuffles : Nat → List String)
    (train dev test : List String)
    (hnodup : g.names.Nodup)
    (hperm : ∀ i, (shuffles i).Perm g.eligible)
    (hsize : 2 * NUM_EVAL_COUNTRIES ≤ g.eligible.length)
    (hok : g.splitCountries shuffles = .ok (train, dev, test)) :
    dev.length = NUM_EVAL_COUNTRIES
      ∧ test.length = NUM_EVAL_COUNTRIES
      ∧ Disjoint dev.toFinset test.toFinset
      ∧ Disjoint train.toFinset dev.toFinset
      ∧ Disjoint train.toFinset test.toFinset
      ∧ train.toFinset ∪ dev.toFinset ∪ test.toFinset = g.names.toFinset
      ∧ (∀ c ∈ dev ++ test, (g.info c).neighbors ≠ [])
      ∧ (∀ n ∈ g.names, (g.info n).neighbors = [] → n ∈ train)
      ∧ train.Sorted (fun a b => a.data ≤ b.data)
      ∧ dev.Sorted (fun a b => a.data ≤ b.data)
      ∧ test.Sorted (fun a b => a.data ≤ b.data) := by
  obtain ⟨i, -, ha⟩ := splitCountries_ok hok
  obtain ⟨h1, h2, h3, h4, h5, h6, h7, h8, -, h10, h11, h12⟩ :=
    splitAttempt_props hnodup (hperm i) ha
  refine ⟨?_, ?_, h3, h4, h5, h6, h7, h8, h10, h11, h12⟩
  · rw [h1]; omega
  · rw [h2]; omega

/-- **C2 witness**: the amended theorem evaluated on the forty-country
registry `gW`. -/
theorem split_partition_properties_witness :
    wDev.length = NUM_EVAL_COUNTRIES
      ∧ wTest.length = NUM_EVAL_COUNTRIES
      ∧ wTrain.toFinset ∪ wDev.toFinset ∪ wTest.toFinset = gW.names.toFinset
      ∧ wDev.Sorted (fun a b => a.data ≤ b.data) := by
  have h := split_partition_properties gW (fun _ => wShuffle) wTrain wDev wTest
    (by decide) (fun _ => List.Perm.refl _) (by decide) (by rfl)
  exact ⟨h.1, h.2.1, h.2.2.2.2.2.1, h.2.2.2.2.2.2.2.2.2.1⟩

/-!
## Claim C3 — evaluation countries keep a neighbor in train
-/

/-- **C3**: for every successful call of the splitter on a registry whose
neighbor references all resolve to known countries, every country in
dev ∪ test has at least one neighbor outside dev ∪ test, and that neighbor
lands in the train list. -/
theorem eval_neighbor_lands_in_train (g : Generator) (shuffles : Nat → List String)
    (train dev test : List String)
    (hnodup : g.names.Nodup)
    (hperm : ∀ i, (shuffles i).Perm g.eligible)
    (hresolve : ∀ c ∈ g.names, ∀ n ∈ (g.info c).neighbors, n ∈ g.names)
    (hok : g.splitCountries shuffles = .ok (train, dev, test)) :
    ∀ c ∈ dev ++ test, ∃ n ∈ (g.info c).neighbors,
      n ∉ dev.toFinset ∪ test.toFinset ∧ n ∈ train := by
  obtain ⟨i, -, ha⟩ := splitCountries_ok hok
  obtain ⟨-, -, -, -, -, h6, -, -, h9, -, -, -⟩ :=
    splitAttempt_props hnodup (hperm i) ha
  intro c hc
  obtain ⟨n, hn, hnotin⟩ := h9 c hc
  refine ⟨n, hn, hnotin, ?_⟩
  have hc_names : c ∈ g.names := by
    have hmem : c ∈ train.toFinset ∪ dev.toFinset ∪ test.toFinset := by
      rcases List.mem_append.mp hc with h | h
      · exact Finset.mem_union_left _
          (Finset.mem_union_right _ (List.mem_toFinset.mpr h))
      · exact Finset.mem_union_right _ (List.mem_toFinset.mpr h)
    rw [h6] at hmem
    exact List.mem_toFinset.mp hmem
  have hn_names : n ∈ g.names := hresolve c hc_names n hn
  have hmem : n ∈ train.toFinset ∪ dev.toFinset ∪ test.toFinset := by
    rw [h6]
    exact List.mem_toFinset.mpr hn_names
  rcases Finset.mem_union.mp hmem with h | h
  · rcases Finset.mem_union.mp h with h' | h'
    · exact List.mem_toFinset.mp h'
    · exact absurd (Finset.mem_union_left _ h') hnotin
  · exact absurd (Finset.mem_union_right _ h) hnotin

/-- **C3 witness**: the theorem evaluated on `gAZ`, whose successful split
is `train = [z]`, `dev = [a]`, `test = []`. -/
theorem eval_neighbor_lands_in_train_witness :
    ∃ n ∈ (gAZ.info "a").neighbors,
      n ∉ (["a"] : List String).toFinset ∪ ([] : List String).toFinset
        ∧ n ∈ (["z"] : List String) := by
  have h := eval_neighbor_lands_in_train gAZ (fun _ => ["a"]) ["z"] ["a"] []
    (by decide) (fun _ => (by decide : (["a"] : List String).Perm gAZ.eligible))
    (by decide) (by decide)
  exact h "a" (by decide)

/-!
## Claim C6 — exhaustion of the splitting attempts
-/

/-- **C6**: if every one of the `MAX_ATTEMPTS` (100) splitting attempts
fails the validity constraint, the splitter raises the error whose message
names the attempt count (no further retry, no split returned); a successful
attempt within the bound makes the splitter return normally. -/
theorem split_attempts_exhaustion (g : Generator) (shuffles : Nat → List String) :
    ((∀ i < MAX_ATTEMPTS, g.splitAttempt (shuffles i) = none) →
        g.splitCountries shuffles
          = .error "100 attempts to split the countries into train/dev/test failed!")
      ∧ (∀ i < MAX_ATTEMPTS, ∀ t, g.splitAttempt (shuffles i) = some t →
          ∃ t', g.splitCountries shuffles = .ok t') := by
  constructor
  · intro h
    have hnone : g.splitLoop ((List.range MAX_ATTEMPTS).map shuffles) = none := by
      apply splitLoop_eq_none
      intro s hs
      obtain ⟨i, hi, rfl⟩ := List.mem_map.mp hs
      exact h i (List.mem_range.mp hi)
    rw [Generator.splitCountries, hnone]
    rfl
  · intro i hi t ht
    have hmem : shuffles i ∈ (List.range MAX_ATTEMPTS).map shuffles :=
      List.mem_map_of_mem _ (List.mem_range.mpr hi)
    obtain ⟨t', ht'⟩ := splitLoop_ne_none hmem ht
    exact ⟨t', by rw [Generator.splitCountries, ht']⟩

/-- **C6 witness**: on `gFail` every attempt fails and the error carries the
attempt count; on `gAZ` the first attempt succeeds and the splitter returns
normally. -/
theorem split_attempts_exhaustion_witness :
    gFail.splitCountries (fun _ => ["a", "b"])
        = .error "100 attempts to split the countries into train/dev/test failed!"
      ∧ ∃ t', gAZ.splitCountries (fun _ => ["a"]) = .ok t' := by
  constructor
  · exact (split_attempts_exhaustion gFail (fun _ => ["a", "b"])).1
      (fun i _ => (by decide : gFail.splitAttempt ["a", "b"] = none))
  · exact (split_attempts_exhaustion gAZ (fun _ => ["a"])).2 0 (by decide)
      (["z"], ["a"], []) (by decide)

/-- The subset relation evaluated on `exGen`: the subregion→region literal
is disclosed, so it is ground truth as well. -/
theorem disclosed_locations_subset_ground_truth_witness :
    locLit "westernEurope" "europe"
      ∈ (exGen.generateSample (fun _ => ∅) ["austria"] none false).allLocations :=
  disclosed_locations_subset_ground_truth exGen (fun _ => ∅) ["austria"] none false
    (by decide)

/-- The neighbor-fact characterization evaluated on `exGenC`, where
`austria` and `belgium` are mutual neighbors in the working list. -/
theorem neighbor_facts_characterization_witness :
    nbLit "austria" "belgium"
        ∈ (exGenC.generateSample (fun _ => ∅) ["austria", "belgium"] none false).neighborFacts
      ↔ "austria" ∈ (["austria", "belgium"] : List String)
          ∧ "belgium" ∈ (["austria", "belgium"] : List String)
          ∧ ("belgium" ∈ (exGenC.info "austria").neighbors
              ∨ "austria" ∈ (exGenC.info "belgium").neighbors) :=
  (neighbor_facts_characterization exGenC (fun _ => ∅) ["austria", "belgium"]
    none false).1 "austria" "belgium"

/-!
## Claims C1, C4, C5, C8, C9, C10 — the located_in constructor crash

`vocabulary.RELATION_LOCATED_IN = "located_in"` fails the `Literal`
constructor's `PREDICATE_PATTERN` (`^[a-z][a-zA-Z0-9]*$` admits no
underscore), so every located-in literal construction in
`_generate_sample` raises ValueError: at line 294 as soon as any subregion
exists, otherwise at line 312 for the first working country.  This
contradicts the generator's own docstring (names are camel-cased for DLV),
its unit test (which generates samples and checks their contents), and the
spec's `locatedIn`.  The theorems below evaluate the checked pipeline on
concrete failing inputs for each claim's scenario.
-/

theorem legalName_located_in : legalName RELATION_LOCATED_IN = false := by
  decide

theorem locLit_illegal (a b : String) : (locLit a b).legal = false := by
  simp [Literal.legal, locLit, legalName_located_in]

/-- Constructing any located-in literal raises the constructor's
ValueError, whatever the terms and polarity. -/
theorem mkLiteralE_located_in (terms : List String) (positive : Bool) :
    mkLiteralE RELATION_LOCATED_IN terms positive
      = .error (predicateError RELATION_LOCATED_IN) := by
  rw [mkLiteralE, if_neg (by decide), if_neg (by decide)]

/-- **C1** (code bug): the disclosed location facts never follow any
visibility rule because they are never built: on `exGen` (one country with
a region and a subregion) the run aborts with the constructor's ValueError
at line 294, before any per-variant disclosure decision is taken. -/
theorem located_in_rejected_before_visibility :
    legalName RELATION_LOCATED_IN = false
      ∧ exGen.generateSampleChecked (fun _ => ∅) ["austria"] none false
          = .error (predicateError RELATION_LOCATED_IN) :=
  ⟨by decide, by rfl⟩

/-- **C4** (code bug): the solver runs of lines 346/364-369 and the
missing-knowledge and prediction sets of lines 372-383 are never computed:
on `exGenC` with explicit targets and `minimal = True` the run aborts at
line 294 with the constructor's ValueError. -/
theorem located_in_rejected_before_predictions :
    exGenC.generateSampleChecked (fun _ => ∅) ["austria", "belgium"]
        (some ["belgium"]) true
      = .error (predicateError RELATION_LOCATED_IN) := by
  rfl

/-- **C5** (code bug): the `located_in(s, r)` literal of line 294 is the
first located-in construction of a run and already raises — its predicate
fails the pattern and `Literal.legal` rejects it — so it is added to no
fact set at all.  (Independently of the crash, the `region(r)` and
`subregion(s)` literals are class facts, which reach the solver input only
when class facts are enabled; see `regions_and_subregions_facts`.) -/
theorem located_in_literal_construction_fails :
    (locLit "westernEurope" "europe").legal = false
      ∧ mkLiteralE RELATION_LOCATED_IN ["westernEurope", "europe"] true
          = .error (predicateError RELATION_LOCATED_IN)
      ∧ exGen.generateSampleChecked (fun _ => ∅) ["austria"] none true
          = .error (predicateError RELATION_LOCATED_IN) :=
  ⟨by decide, by rfl, by rfl⟩

/-- **C8** (code bug): even with an empty target set — the premise under
which every location fact would be disclosed — the run still aborts at
line 294, so neither the restricted nor the perfect-knowledge answer set is
ever computed, let alone compared. -/
theorem located_in_rejected_with_empty_targets :
    chooseTargets [] none = ∅
      ∧ exGen.generateSampleChecked (fun _ => ∅) [] none false
          = .error (predicateError RELATION_LOCATED_IN) :=
  ⟨by decide, by rfl⟩

/-- **C9** (code bug): every `neighborOf` literal is individually legal,
but the country loop raises at line 312 (`reg_lit`) before the neighbor
literals of lines 339-340 are constructed, and `input_facts` (line 343) is
never formed: on `gAZ` (no subregions, `a` bordering `z`) the first
country's region literal already aborts the run. -/
theorem located_in_rejected_before_neighbor_facts :
    (nbLit "a" "z").legal = true
      ∧ gAZ.generateSampleChecked (fun _ => ∅) ["a", "z"] none false
          = .error (predicateError RELATION_LOCATED_IN) :=
  ⟨by decide, by rfl⟩

/-- **C10** (code bug): the sets `location_facts` and `all_locations` the
claim relates never exist in a run: on `gFail` (no subregions) the first
working country's region literal at line 312 raises the constructor's
ValueError. -/
theorem located_in_rejected_in_country_loop :
    gFail.generateSampleChecked (fun _ => ∅) ["a", "b"] none false
      = .error (predicateError RELATION_LOCATED_IN) := by
  rfl

end CountryData
